import Mathlib

/-!
Verification of the TPI (Topographic Position Index) raster pipeline.

Shallow embedding of the three scripts of the repository
(`TPIprocessing.py`, `TPIslopeposition.py`, `TPIlandform.py`).  Cell values
are rationals; a raster grid is a row-major list of optional cells (`none`
is the no-data sentinel).  The arcpy raster primitives the scripts call
(`FocalStatistics`, `Reclassify`, `Con`, cell-wise arithmetic, the
environment settings) are not part of the repository; where their
behaviour decides a property they are modelled from the specification and
the doc comment of the definition says so.
-/

namespace TPI

/-- A raster grid: dimensions, cell size in ground units, and a row-major
list of cells; `none` is the no-data sentinel. -/
structure RasterGrid where
  width : Nat
  height : Nat
  cellSizeX : ℚ
  cellSizeY : ℚ
  cells : List (Option ℚ)
deriving DecidableEq

/-- Well-formedness: the cell list has exactly `height * width` entries. -/
def RasterGrid.WF (g : RasterGrid) : Prop :=
  g.cells.length = g.height * g.width

/-- An arcpy raster object: the grid plus the statistics properties the
scripts read from it (`.mean`, `.standardDeviation`, `.minimum`,
`.maximum`, as in TPIprocessing.py lines 126-129 and 204-207). -/
structure Raster where
  grid : RasterGrid
  mean : ℚ
  standardDeviation : ℚ
  minimum : ℚ
  maximum : ℚ
deriving DecidableEq

/-- Error kinds of the specification's numeric core (spec section 7). -/
inductive RasterError where
  | degenerateRaster
  | unmappedValue
  | emptyRaster
deriving DecidableEq

/-- Read the cell at row `r`, column `c`; out-of-range reads are no-data. -/
def getCell (g : RasterGrid) (r c : Nat) : Option ℚ :=
  if r < g.height ∧ c < g.width then (g.cells[r * g.width + c]?).join else none

/-- Cell-wise combination of two optional cells: no-data propagates. -/
def binCell (f : ℚ → ℚ → ℚ) : Option ℚ → Option ℚ → Option ℚ
  | some a, some b => some (f a b)
  | _, _ => none

/-- Cell-wise combination of two grids (arcpy map-algebra binary operator:
no-data in either operand gives no-data). -/
def cellwise2 (f : Option ℚ → Option ℚ → Option ℚ) (g h : RasterGrid) : RasterGrid :=
  { g with cells := List.zipWith f g.cells h.cells }

/-- Cell-wise raster subtraction (`dem - focal_mean`, TPIprocessing.py line 71). -/
def gridSub (g h : RasterGrid) : RasterGrid := cellwise2 (binCell (· - ·)) g h

/-- Cell-wise raster addition (`tpi_r + slope_r`, TPIprocessing.py lines 142 and 229). -/
def gridAdd (g h : RasterGrid) : RasterGrid := cellwise2 (binCell (· + ·)) g h

/-- One cell of arcpy `Con(condition, trueValue, falseValue)`: no-data
condition gives no-data, otherwise the chosen branch. -/
def conCell (c : Option Bool) (t f : Option ℚ) : Option ℚ :=
  match c with
  | none => none
  | some true => t
  | some false => f

/-! ## Annulus neighborhood and focal mean (claims C1, C2) -/

/-- The unit mode of the annulus radii (`'MAP'` or `'CELL'`,
TPIprocessing.py line 67). -/
inductive NbrUnit where
  | map
  | cell
deriving DecidableEq

/-- The annulus neighborhood `arcpy.sa.NbrAnnulus(inner, outer, unit)`. -/
structure Annulus where
  inner : ℚ
  outer : ℚ
  unit : NbrUnit
deriving DecidableEq

/-- A radius in ground units: `MAP` radii are already ground distances,
`CELL` radii are scaled by the larger cell dimension (spec section 3). -/
def groundRadius (g : RasterGrid) (a : Annulus) (r : ℚ) : ℚ :=
  match a.unit with
  | .map => r
  | .cell => r * max g.cellSizeX g.cellSizeY

/-- Squared ground distance between the centers of cells `(r, c)` and
`(r2, c2)`. -/
def distSq (g : RasterGrid) (r c r2 c2 : Nat) : ℚ :=
  ((((r2 : ℤ) - (r : ℤ) : ℤ) : ℚ) * g.cellSizeY) ^ 2 +
    ((((c2 : ℤ) - (c : ℤ) : ℤ) : ℚ) * g.cellSizeX) ^ 2

/-- Cell `(r2, c2)` lies in the annulus around `(r, c)`: its center-to-center
ground distance is within `[innerRadius, outerRadius]`, stated on squared
distances (equivalent for nonnegative radii). -/
def inRing (g : RasterGrid) (a : Annulus) (r c r2 c2 : Nat) : Prop :=
  (groundRadius g a a.inner) ^ 2 ≤ distSq g r c r2 c2 ∧
    distSq g r c r2 c2 ≤ (groundRadius g a a.outer) ^ 2

instance (g : RasterGrid) (a : Annulus) (r c r2 c2 : Nat) :
    Decidable (inRing g a r c r2 c2) := by
  unfold inRing
  infer_instance

/-- The contribution of cell `(r2, c2)` to the annulus neighborhood of
`(r, c)`: its value when it is valid and inside the ring, nothing
otherwise. -/
def ringCellValue (g : RasterGrid) (a : Annulus) (r c r2 c2 : Nat) : Option ℚ :=
  match getCell g r2 c2 with
  | some v => if inRing g a r c r2 c2 then some v else none
  | none => none

/-- All valid cell values whose center lies in the annulus around `(r, c)`,
gathered in row-major order. -/
def ringValues (g : RasterGrid) (a : Annulus) (r c : Nat) : List ℚ :=
  (List.range g.height).flatMap fun r2 =>
    (List.range g.width).filterMap fun c2 => ringCellValue g a r c r2 c2

/-- One output cell of the annulus focal mean: the arithmetic mean of the
gathered values, or no-data when none were gathered. -/
def focalCell (g : RasterGrid) (a : Annulus) (r c : Nat) : Option ℚ :=
  if ringValues g a r c = [] then none
  else some ((ringValues g a r c).sum / (ringValues g a r c).length)

/-- Modelled from the spec: the repository computes the focal mean with
`arcpy.sa.FocalStatistics(dem, annulus, 'MEAN', 'NODATA')`
(TPIprocessing.py line 68), whose implementation is not part of the
repository; this is the annulus focal mean of spec section 4.1 — per cell
the mean of all valid cells within the ring, no-data when the ring holds
no valid cell. -/
def focalMeanGrid (g : RasterGrid) (a : Annulus) : RasterGrid :=
  { g with
    cells := (List.range (g.height * g.width)).map
      (fun i => focalCell g a (i / g.width) (i % g.width)) }

/-- `processTPI` (TPIprocessing.py lines 67-71, mask and save paths
omitted): build the annulus, compute the focal mean, subtract it from the
DEM. -/
def processTPI (dem : RasterGrid) (outerRadius innerRadius : ℚ) (u : NbrUnit) : RasterGrid :=
  let annulus : Annulus := ⟨innerRadius, outerRadius, u⟩
  let focalMean := focalMeanGrid dem annulus
  gridSub dem focalMean

/-! ## Reclassification and slope position (claims C4, C5) -/

/-- Modelled from the spec: one cell of `arcpy.sa.Reclassify` with a
`RemapRange` table (not part of the repository).  Bands are tried in
listed order with inclusive bounds, first match wins (the spec: a value
exactly on a shared boundary belongs to the band listed first, the higher
band in the scripts' tables); a value matching no band keeps its value
(arcpy's default `missing_values='DATA'` behaviour). -/
def remapRangeValue (bands : List (ℚ × ℚ × ℚ)) (v : ℚ) : ℚ :=
  match bands with
  | [] => v
  | (lo, hi, code) :: rest => if lo ≤ v ∧ v ≤ hi then code else remapRangeValue rest v

/-- Range reclassification of a grid: no-data stays no-data, valid cells
go through the band table. -/
def reclassifyRange (bands : List (ℚ × ℚ × ℚ)) (g : RasterGrid) : RasterGrid :=
  { g with cells := g.cells.map (Option.map (remapRangeValue bands)) }

/-- The five slope-position bands of TPIprocessing.py lines 132-136:
boundaries `mean+sd`, `mean+0.5*sd`, `mean-0.5*sd`, `mean-sd` against
`[min, max]`, codes 1, 2, 3, 5, 6 from the highest band down. -/
def slopePositionBands (m sd mn mx : ℚ) : List (ℚ × ℚ × ℚ) :=
  [(m + sd, mx, 1),
   (m + 0.5 * sd, m + sd, 2),
   (m - 0.5 * sd, m + 0.5 * sd, 3),
   (m - sd, m - 0.5 * sd, 5),
   (mn, m - sd, 6)]

/-- `tpi_r`: the reclassified TPI raster of `slopePosition`
(TPIprocessing.py line 132), using the statistics read from the input
raster. -/
def slopePositionTpiR (tpi : Raster) : RasterGrid :=
  reclassifyRange
    (slopePositionBands tpi.mean tpi.standardDeviation tpi.minimum tpi.maximum)
    tpi.grid

/-- `slope_r = Con(tpi_r == 3, Con(slope <= 5, 1, 0), 0)`
(TPIprocessing.py line 139; the flat-slope threshold is the literal 5). -/
def slopePositionSlopeR (tpi : Raster) (slope : RasterGrid) : RasterGrid :=
  cellwise2
    (fun a s => conCell (a.map (fun q => decide (q = 3)))
      (conCell (s.map (fun sv => decide (sv ≤ 5))) (some 1) (some 0)) (some 0))
    (slopePositionTpiR tpi) slope

/-- `slopePosition` (TPIprocessing.py lines 126-142, mask and save paths
omitted): reclassify TPI into five bands, add the flat-slope correction. -/
def slopePosition (tpi : Raster) (slope : RasterGrid) : RasterGrid :=
  gridAdd (slopePositionTpiR tpi) (slopePositionSlopeR tpi slope)

/-! ## Landform classification (claims C3, C6, C7, C8) -/

/-- Exact-value lookup in a `RemapValue` table, first match wins. -/
def lookupValue (table : List (ℚ × ℚ)) (v : ℚ) : Option ℚ :=
  match table with
  | [] => none
  | (k, code) :: rest => if v = k then some code else lookupValue rest v

/-- Modelled from the spec: the exact-value reclassifier of spec section
4.3 — no-data stays no-data, and a valid value absent from the table fails
with `UnmappedValueError`.  (The repository's final remap calls
`arcpy.sa.Reclassify` with a `RemapValue` table, TPIprocessing.py line
232, whose implementation is not part of the repository.) -/
def reclassifyValueCells (table : List (ℚ × ℚ)) :
    List (Option ℚ) → Except RasterError (List (Option ℚ))
  | [] => .ok []
  | none :: rest =>
    match reclassifyValueCells table rest with
    | .ok ds => .ok (none :: ds)
    | .error e => .error e
  | some v :: rest =>
    match lookupValue table v with
    | none => .error .unmappedValue
    | some code =>
      match reclassifyValueCells table rest with
      | .ok ds => .ok (some code :: ds)
      | .error e => .error e

/-- Exact-value reclassification of a grid (see `reclassifyValueCells`). -/
def reclassifyValue (table : List (ℚ × ℚ)) (g : RasterGrid) :
    Except RasterError RasterGrid :=
  match reclassifyValueCells table g.cells with
  | .ok ds => .ok { g with cells := ds }
  | .error e => .error e

/-- The fixed landform value table of TPIprocessing.py lines 232-241. -/
def tpilandformTable : List (ℚ × ℚ) :=
  [(-1001, 1), (-1000, 4), (-999, 8), (-1, 2), (0, 5),
   (1, 9), (10, 6), (999, 3), (1000, 7), (1001, 10)]

/-- Modelled from the spec: z-normalisation of one TPI raster,
`z = (tpi - mean) / std` with the raster's own statistics, failing with
`DegenerateRasterError` when `std = 0` (spec section 4.6 step 1; the
repository divides the raster by the scalar via arcpy map algebra,
TPIprocessing.py lines 210 and 213, not part of the repository). -/
def zNormalize (t : Raster) : Except RasterError RasterGrid :=
  if t.standardDeviation = 0 then .error .degenerateRaster
  else .ok { t.grid with
    cells := t.grid.cells.map
      (Option.map (fun v => (v - t.mean) / t.standardDeviation)) }

/-- The valid (non-no-data) values of a grid, in row-major order. -/
def validValues (g : RasterGrid) : List ℚ := g.cells.filterMap id

/-- Minimum over the valid cells (`z.minimum` of a computed raster). -/
def gridMinimum (g : RasterGrid) : Option ℚ :=
  match validValues g with
  | [] => none
  | v :: rest => some (rest.foldl min v)

/-- Maximum over the valid cells (`z.maximum` of a computed raster). -/
def gridMaximum (g : RasterGrid) : Option ℚ :=
  match validValues g with
  | [] => none
  | v :: rest => some (rest.foldl max v)

/-- The three z-score bands of TPIprocessing.py lines 216-221: `[min, -t]`,
`[-t, t]`, `[t, max]` with codes `-scale`, `0`, `scale`. -/
def stdBands (mn t mx scale : ℚ) : List (ℚ × ℚ × ℚ) :=
  [(mn, -t, -scale), (-t, t, 0), (t, mx, scale)]

/-- Reclassify one z grid over its own minimum and maximum
(TPIprocessing.py lines 216-221); statistics of an all-no-data grid fail
with `EmptyRasterError` (spec section 4.2). -/
def landformZr (z : RasterGrid) (t scale : ℚ) : Except RasterError RasterGrid :=
  match gridMinimum z, gridMaximum z with
  | some mn, some mx => .ok (reclassifyRange (stdBands mn t mx scale) z)
  | _, _ => .error .emptyRaster

/-- `slope_r = Con(reclassadd == 0, Con(slope > slope_thres, 10, 0), 0)`
(TPIprocessing.py line 226). -/
def slopeCorrection (reclassadd slope : RasterGrid) (thres : ℚ) : RasterGrid :=
  cellwise2
    (fun a s => conCell (a.map (fun q => decide (q = 0)))
      (conCell (s.map (fun sv => decide (thres < sv))) (some 10) (some 0)) (some 0))
    reclassadd slope

/-- `landform` (TPIprocessing.py lines 204-241, mask and save paths
omitted): z-normalize both TPI rasters, reclassify each into three bands,
add, apply the slope correction, and remap through the fixed landform
table. -/
def landform (tpiSmall tpiLarge : Raster) (slope : RasterGrid)
    (stdevThres slopeThres : ℚ) : Except RasterError RasterGrid :=
  match zNormalize tpiSmall with
  | .error e => .error e
  | .ok zS =>
    match zNormalize tpiLarge with
    | .error e => .error e
    | .ok zL =>
      match landformZr zS stdevThres 1 with
      | .error e => .error e
      | .ok zSr =>
        match landformZr zL stdevThres 1000 with
        | .error e => .error e
        | .ok zLr =>
          let reclassadd := gridAdd zSr zLr
          let tpilf := gridAdd reclassadd (slopeCorrection reclassadd slope slopeThres)
          reclassifyValue tpilandformTable tpilf

/-- A concrete TPI raster: a single cell holding the mean, with unit
standard deviation. -/
def tpiFlat : Raster := ⟨⟨1, 1, 1, 1, [some 0]⟩, 0, 1, 0, 0⟩

/-- A concrete TPI raster whose standard deviation property is zero. -/
def tpiDeg : Raster := ⟨⟨1, 1, 1, 1, [some 3]⟩, 3, 0, 3, 3⟩

/-- A concrete 1-by-1 slope grid with slope 10 degrees. -/
def slopeTen : RasterGrid := ⟨1, 1, 1, 1, [some 10]⟩

/-- A concrete 1-by-1 grid holding the value 2 (not in the landform
table). -/
def gridTwo : RasterGrid := ⟨1, 1, 1, 1, [some 2]⟩

/-! ## The process-wide arcpy environment (claim C9)

The scripts mutate `arcpy.env.mask` and `arcpy.env.snapRaster`, a
process-wide state.  The state transitions below transcribe exactly the
environment effects of the three functions of TPIprocessing.py; mask
arguments and raster references are abstracted to identifiers. -/

/-- The process-wide geoprocessing environment: the mask and snap-raster
settings (`arcpy.env.mask`, `arcpy.env.snapRaster`). -/
structure GeoEnv where
  mask : Option Nat
  snapRaster : Option Nat
deriving DecidableEq

/-- Environment effect of `processTPI` (TPIprocessing.py lines 48-50 set
`arcpy.env.mask = mask` when a mask is supplied; line 84 unconditionally
sets `arcpy.env.mask = None` before returning). -/
def processTPIEnv (env : GeoEnv) (maskArg : Option Nat) : GeoEnv :=
  let env1 := match maskArg with
    | some m => { env with mask := some m }
    | none => env
  { env1 with mask := none }

/-- Environment effect of `slopePosition` (TPIprocessing.py lines 116-119:
when a mask is supplied the function sets `arcpy.env.mask = mask` and
`arcpy.env.snapRaster = tpi`; the function never resets either). -/
def slopePositionEnv (env : GeoEnv) (tpiRef : Nat) (maskArg : Option Nat) : GeoEnv :=
  match maskArg with
  | some m => { env with mask := some m, snapRaster := some tpiRef }
  | none => env

/-- Environment effect of `landform` (TPIprocessing.py lines 193-195: when
a mask is supplied the function sets `arcpy.env.mask = mask` and never
resets it). -/
def landformEnv (env : GeoEnv) (maskArg : Option Nat) : GeoEnv :=
  match maskArg with
  | some m => { env with mask := some m }
  | none => env

/-! ## The cast-to-raster guard (claim C10) -/

/-- A Python value reaching the raster-cast guard: a path string, an
`arcpy.sa.Raster` instance, or the class object `arcpy.sa.Raster` itself. -/
inductive PyValue where
  | str (s : String)
  | rasterObj (g : Raster)
  | classRaster
deriving DecidableEq

/-- The `arcpy.Raster(...)` constructor: loads a raster from a path,
passes a raster instance through, and fails on the class object. -/
def pyRasterConstructor (load : String → Raster) : PyValue → Option PyValue
  | .str s => some (.rasterObj (load s))
  | .rasterObj g => some (.rasterObj g)
  | .classRaster => none

/-- The guard `if x != arcpy.sa.Raster: x = arcpy.Raster(x)` of
TPIprocessing.py lines 45-46, 111-114 and 186-191: the comparison is
against the class object itself, not an `isinstance` test. -/
def castToRasterStep (load : String → Raster) (x : PyValue) : Option PyValue :=
  if x = PyValue.classRaster then some x else pyRasterConstructor load x

/-- A trivial loader used to instantiate hypotheses at concrete inputs. -/
def constLoad : String → Raster := fun _ => ⟨⟨1, 1, 1, 1, [some 0]⟩, 0, 1, 0, 0⟩

/-- A concrete 1-by-1 DEM used by witnesses. -/
def demOne : RasterGrid := ⟨1, 1, 1, 1, [some 5]⟩

/-- A concrete annulus with inner radius 0 and outer radius 1 in cell units. -/
def annulusOne : Annulus := ⟨0, 1, .cell⟩

/-! ## Helper lemmas -/

theorem zipWith_getElem? {α β γ : Type} (f : α → β → γ) (as : List α) (bs : List β) (i : Nat) :
    (List.zipWith f as bs)[i]? =
      as[i]?.bind fun a => bs[i]?.map fun b => f a b := by
  induction as generalizing bs i with
  | nil => simp
  | cons a as ih =>
    cases bs with
    | nil => simp
    | cons b bs =>
      cases i with
      | zero => simp
      | succ n => simpa using ih bs n

theorem index_lt {r c w h : Nat} (hr : r < h) (hc : c < w) : r * w + c < h * w := by
  calc r * w + c < r * w + w := by omega
  _ = (r + 1) * w := by ring
  _ ≤ h * w := Nat.mul_le_mul_right w hr

theorem index_div {r c w : Nat} (hc : c < w) : (r * w + c) / w = r := by
  have hw : 0 < w := Nat.lt_of_le_of_lt (Nat.zero_le c) hc
  rw [Nat.add_comm, Nat.add_mul_div_right _ _ hw, Nat.div_eq_of_lt hc]
  omega

theorem index_mod {r c w : Nat} (hc : c < w) : (r * w + c) % w = c := by
  rw [Nat.add_comm, Nat.add_mul_mod_self_right]
  exact Nat.mod_eq_of_lt hc

theorem getCell_bounds {g : RasterGrid} {r c : Nat} {v : ℚ}
    (h : getCell g r c = some v) : r < g.height ∧ c < g.width := by
  unfold getCell at h
  split at h
  · assumption
  · simp at h

theorem getCell_focalMeanGrid (g : RasterGrid) (a : Annulus) {r c : Nat}
    (hr : r < g.height) (hc : c < g.width) :
    getCell (focalMeanGrid g a) r c = focalCell g a r c := by
  unfold getCell focalMeanGrid
  rw [if_pos ⟨hr, hc⟩]
  rw [List.getElem?_map, List.getElem?_range (index_lt hr hc)]
  simp [index_div hc, index_mod hc]

theorem ringCellValue_eq_some {g : RasterGrid} {a : Annulus} {r c r2 c2 : Nat} {v : ℚ} :
    ringCellValue g a r c r2 c2 = some v ↔
      getCell g r2 c2 = some v ∧ inRing g a r c r2 c2 := by
  unfold ringCellValue
  cases h : getCell g r2 c2 with
  | none => simp
  | some w =>
    by_cases hin : inRing g a r c r2 c2 <;> simp [hin]

theorem mem_ringValues {g : RasterGrid} {a : Annulus} {r c : Nat} (v : ℚ) :
    v ∈ ringValues g a r c ↔
      ∃ r2 c2, getCell g r2 c2 = some v ∧ inRing g a r c r2 c2 := by
  unfold ringValues
  simp only [List.mem_flatMap, List.mem_filterMap, List.mem_range]
  constructor
  · rintro ⟨r2, hr2, c2, hc2, hv⟩
    exact ⟨r2, c2, ringCellValue_eq_some.1 hv⟩
  · rintro ⟨r2, c2, hv, hin⟩
    have hb := getCell_bounds hv
    exact ⟨r2, hb.1, c2, hb.2, ringCellValue_eq_some.2 ⟨hv, hin⟩⟩

theorem getCell_cellwise2 (f : ℚ → ℚ → ℚ) (g h : RasterGrid)
    (hh : h.height = g.height) (hw : h.width = g.width) (r c : Nat) :
    getCell (cellwise2 (binCell f) g h) r c =
      binCell f (getCell g r c) (getCell h r c) := by
  unfold getCell cellwise2
  by_cases hb : r < g.height ∧ c < g.width
  · rw [if_pos hb, if_pos hb, if_pos (by rw [hh, hw]; exact hb), hw]
    rw [zipWith_getElem?]
    rcases e1 : g.cells[r * g.width + c]? with _ | oa <;>
      rcases e2 : h.cells[r * g.width + c]? with _ | ob <;>
        simp [binCell, Option.join]
  · rw [if_neg hb, if_neg hb, if_neg (by rw [hh, hw]; exact hb)]
    simp [binCell]

theorem reclassifyRange_getElem (bands : List (ℚ × ℚ × ℚ)) (g : RasterGrid) (i : Nat) :
    (reclassifyRange bands g).cells[i]? =
      (g.cells[i]?).map (Option.map (remapRangeValue bands)) := by
  simp [reclassifyRange, List.getElem?_map]

theorem remapRange_coverage (m sd mn mx : ℚ) {v : ℚ}
    (h1 : mn ≤ v) (h2 : v ≤ mx) :
    remapRangeValue (slopePositionBands m sd mn mx) v ∈ ([1, 2, 3, 5, 6] : List ℚ) := by
  simp only [slopePositionBands, remapRangeValue]
  split_ifs with a b c d e
  · norm_num
  · norm_num
  · norm_num
  · norm_num
  · norm_num
  · exfalso
    push_neg at a b c d e
    have hA : v < m + sd := by
      by_contra hn
      push_neg at hn
      exact absurd h2 (not_le.2 (a hn))
    have hB : v < m + 0.5 * sd := by
      by_contra hn
      push_neg at hn
      have := b hn
      linarith
    have hC : v < m - 0.5 * sd := by
      by_contra hn
      push_neg at hn
      have := c hn
      linarith
    have hD : v < m - sd := by
      by_contra hn
      push_neg at hn
      have := d hn
      linarith
    have := e h1
    linarith

/-! ## Claims C1 and C2 -/

/-- Claim C1: `processTPI` builds the annulus from the given radii and
unit, computes the annulus focal mean of the DEM, and returns the
cell-wise difference `dem - focalMean`; a result cell is no-data exactly
when the DEM cell or the focal-mean cell is no-data, and otherwise holds
their difference. -/
theorem claim1_processTPI_subtracts_focal_mean (dem : RasterGrid)
    (outerR innerR : ℚ) (u : NbrUnit) (r c : Nat) :
    processTPI dem outerR innerR u =
      gridSub dem (focalMeanGrid dem ⟨innerR, outerR, u⟩) ∧
    getCell (processTPI dem outerR innerR u) r c =
      match getCell dem r c, getCell (focalMeanGrid dem ⟨innerR, outerR, u⟩) r c with
      | some d, some m => some (d - m)
      | _, _ => none := by
  refine ⟨rfl, ?_⟩
  have h := getCell_cellwise2 (· - ·) dem (focalMeanGrid dem ⟨innerR, outerR, u⟩)
    rfl rfl r c
  rw [show processTPI dem outerR innerR u =
    cellwise2 (binCell (· - ·)) dem (focalMeanGrid dem ⟨innerR, outerR, u⟩) from rfl, h]
  rcases getCell dem r c with _ | d <;>
    rcases getCell (focalMeanGrid dem ⟨innerR, outerR, u⟩) r c with _ | m <;>
      simp [binCell]

/-- Claim C2: an annulus focal-mean output cell is no-data iff no valid
cell of the grid lies within the ring around it; the gathered neighborhood
is exactly the valid in-ring cells, and when at least one exists the
output is their arithmetic mean. -/
theorem claim2_focal_mean_nodata_iff (g : RasterGrid) (a : Annulus) (r c : Nat)
    (hr : r < g.height) (hc : c < g.width) :
    (getCell (focalMeanGrid g a) r c = none ↔
      ¬ ∃ r2 c2 v, getCell g r2 c2 = some v ∧ inRing g a r c r2 c2) ∧
    (∀ v, v ∈ ringValues g a r c ↔
      ∃ r2 c2, getCell g r2 c2 = some v ∧ inRing g a r c r2 c2) ∧
    (ringValues g a r c ≠ [] →
      getCell (focalMeanGrid g a) r c =
        some ((ringValues g a r c).sum / (ringValues g a r c).length)) := by
  refine ⟨?_, fun v => mem_ringValues v, ?_⟩
  · rw [getCell_focalMeanGrid g a hr hc]
    constructor
    · intro hnone hex
      rcases hex with ⟨r2, c2, v, hv, hin⟩
      have hm : v ∈ ringValues g a r c := (mem_ringValues v).2 ⟨r2, c2, hv, hin⟩
      unfold focalCell at hnone
      split at hnone
      · next hemp => rw [hemp] at hm; simp at hm
      · simp at hnone
    · intro hnex
      unfold focalCell
      rw [if_pos]
      exact List.eq_nil_iff_forall_not_mem.2 fun v hv => by
        rcases (mem_ringValues v).1 hv with ⟨r2, c2, h1, h2⟩
        exact hnex ⟨r2, c2, v, h1, h2⟩
  · intro hne
    rw [getCell_focalMeanGrid g a hr hc]
    unfold focalCell
    rw [if_neg hne]

/-- Claim C2, witness: on the concrete 1-by-1 DEM with the cell-unit
annulus `[0, 1]`, the ring around the single cell holds that cell's value
and the focal mean there is its mean. -/
theorem claim2_focal_mean_nodata_iff_witness :
    (0 < demOne.height ∧ 0 < demOne.width) ∧
      getCell (focalMeanGrid demOne annulusOne) 0 0 = some 5 := by
  have hv : getCell demOne 0 0 = some (5 : ℚ) := by norm_num [getCell, demOne]
  have hin : inRing demOne annulusOne 0 0 0 0 := by
    norm_num [inRing, distSq, groundRadius, annulusOne, demOne]
  have hrc : ringCellValue demOne annulusOne 0 0 0 0 = some 5 :=
    ringCellValue_eq_some.2 ⟨hv, hin⟩
  have hrv : ringValues demOne annulusOne 0 0 = [5] := by
    unfold ringValues
    have h1 : demOne.height = 1 := rfl
    have h2 : demOne.width = 1 := rfl
    rw [h1, h2, show List.range 1 = [0] from rfl]
    simp [hrc]
  have h := (claim2_focal_mean_nodata_iff demOne annulusOne 0 0
    (by norm_num [demOne]) (by norm_num [demOne])).2.2 (by rw [hrv]; simp)
  refine ⟨⟨by norm_num [demOne], by norm_num [demOne]⟩, ?_⟩
  rw [h, hrv]
  norm_num

theorem cellwise2_getElem (f : Option ℚ → Option ℚ → Option ℚ)
    (g h : RasterGrid) (i : Nat) :
    (cellwise2 f g h).cells[i]? =
      g.cells[i]?.bind fun a => h.cells[i]?.map fun b => f a b := by
  simp only [cellwise2]
  exact zipWith_getElem? f g.cells h.cells i

theorem binCell_eq_some {f : ℚ → ℚ → ℚ} {a b : Option ℚ} {q : ℚ}
    (h : binCell f a b = some q) : ∃ x y, a = some x ∧ b = some y ∧ q = f x y := by
  cases a with
  | none => simp [binCell] at h
  | some x =>
    cases b with
    | none => simp [binCell] at h
    | some y => exact ⟨x, y, rfl, rfl, by simpa [binCell] using h.symm⟩

theorem remapRange_mean (m sd mn mx : ℚ) (hsd : 0 < sd) :
    remapRangeValue (slopePositionBands m sd mn mx) m = 3 := by
  simp only [slopePositionBands, remapRangeValue]
  rw [if_neg (by rintro ⟨h1, h2⟩; linarith), if_neg (by rintro ⟨h1, h2⟩; linarith),
    if_pos ⟨by linarith, by linarith⟩]

theorem lookupValue_mem {table : List (ℚ × ℚ)} {v q : ℚ}
    (h : lookupValue table v = some q) : (v, q) ∈ table := by
  induction table with
  | nil => simp [lookupValue] at h
  | cons p rest ih =>
    rcases p with ⟨k, code⟩
    simp only [lookupValue] at h
    split_ifs at h with hv
    · subst hv
      obtain rfl : code = q := by simpa using h
      exact List.mem_cons_self _ _
    · exact List.mem_cons_of_mem _ (ih h)

theorem lookupValue_eq_none {table : List (ℚ × ℚ)} {w : ℚ} :
    lookupValue table w = none ↔ w ∉ table.map Prod.fst := by
  induction table with
  | nil => simp [lookupValue]
  | cons p rest ih =>
    rcases p with ⟨k, code⟩
    simp only [lookupValue, List.map_cons, List.mem_cons]
    by_cases hw : w = k
    · simp [hw]
    · simp [hw, ih]

theorem reclassifyValueCells_ok_codes {table : List (ℚ × ℚ)} :
    ∀ {cs ds : List (Option ℚ)}, reclassifyValueCells table cs = .ok ds →
      ∀ d ∈ ds, ∀ q : ℚ, d = some q → ∃ k, lookupValue table k = some q := by
  intro cs
  induction cs with
  | nil =>
    intro ds h d hd q hq
    simp only [reclassifyValueCells] at h
    rw [Except.ok.injEq] at h
    subst h
    simp at hd
  | cons c rest ih =>
    intro ds h d hd q hq
    rcases c with _ | v
    · simp only [reclassifyValueCells] at h
      rcases hrec : reclassifyValueCells table rest with e | ds'
      · rw [hrec] at h; simp at h
      · rw [hrec] at h
        simp only [Except.ok.injEq] at h
        subst h
        rcases List.mem_cons.1 hd with rfl | hd'
        · exact absurd hq (by simp)
        · exact ih hrec d hd' q hq
    · simp only [reclassifyValueCells] at h
      rcases hlk : lookupValue table v with _ | code
      · rw [hlk] at h; simp at h
      · rw [hlk] at h
        rcases hrec : reclassifyValueCells table rest with e | ds'
        · rw [hrec] at h; simp at h
        · rw [hrec] at h
          simp only [Except.ok.injEq] at h
          subst h
          rcases List.mem_cons.1 hd with rfl | hd'
          · obtain rfl : code = q := by simpa using hq
            exact ⟨v, hlk⟩
          · exact ih hrec d hd' q hq

theorem reclassifyValueCells_ok_nodata {table : List (ℚ × ℚ)} :
    ∀ {cs ds : List (Option ℚ)}, reclassifyValueCells table cs = .ok ds →
      ∀ i : Nat, cs[i]? = some none → ds[i]? = some none := by
  intro cs
  induction cs with
  | nil =>
    intro ds h i hi
    simp at hi
  | cons c rest ih =>
    intro ds h i hi
    rcases c with _ | v
    · simp only [reclassifyValueCells] at h
      rcases hrec : reclassifyValueCells table rest with e | ds'
      · rw [hrec] at h; simp at h
      · rw [hrec] at h
        simp only [Except.ok.injEq] at h
        subst h
        cases i with
        | zero => simp
        | succ n => simpa using ih hrec n (by simpa using hi)
    · cases i with
      | zero => simp at hi
      | succ n =>
        simp only [reclassifyValueCells] at h
        rcases hlk : lookupValue table v with _ | code
        · rw [hlk] at h; simp at h
        · rw [hlk] at h
          rcases hrec : reclassifyValueCells table rest with e | ds'
          · rw [hrec] at h; simp at h
          · rw [hrec] at h
            simp only [Except.ok.injEq] at h
            subst h
            simpa using ih hrec n (by simpa using hi)

theorem reclassifyValueCells_unmapped {table : List (ℚ × ℚ)} :
    ∀ {cs : List (Option ℚ)} {v : ℚ}, some v ∈ cs → lookupValue table v = none →
      reclassifyValueCells table cs = .error .unmappedValue := by
  intro cs
  induction cs with
  | nil =>
    intro v h
    simp at h
  | cons c rest ih =>
    intro v hmem hlk
    rcases List.mem_cons.1 hmem with rfl | hmem'
    · simp only [reclassifyValueCells]
      rw [hlk]
    · rcases c with _ | u
      · simp only [reclassifyValueCells]
        rw [ih hmem' hlk]
      · simp only [reclassifyValueCells]
        rcases hlk2 : lookupValue table u with _ | code
        · rfl
        · rw [ih hmem' hlk]

theorem tpilandformTable_codes {k q : ℚ} (h : (k, q) ∈ tpilandformTable) :
    q ∈ ([1, 2, 3, 4, 5, 6, 7, 8, 9, 10] : List ℚ) := by
  simp only [tpilandformTable, List.mem_cons, List.not_mem_nil, or_false,
    Prod.mk.injEq] at h
  rcases h with ⟨h1, h2⟩ | ⟨h1, h2⟩ | ⟨h1, h2⟩ | ⟨h1, h2⟩ | ⟨h1, h2⟩ | ⟨h1, h2⟩ |
    ⟨h1, h2⟩ | ⟨h1, h2⟩ | ⟨h1, h2⟩ | ⟨h1, h2⟩ <;> subst h2 <;> norm_num [List.mem_cons]

theorem zNormalize_tpiFlat : zNormalize tpiFlat = .ok ⟨1, 1, 1, 1, [some 0]⟩ := by
  norm_num [zNormalize, tpiFlat]

theorem gridMinimum_zero : gridMinimum ⟨1, 1, 1, 1, [some (0:ℚ)]⟩ = some 0 := rfl

theorem gridMaximum_zero : gridMaximum ⟨1, 1, 1, 1, [some (0:ℚ)]⟩ = some 0 := rfl

theorem landformZr_one : landformZr ⟨1, 1, 1, 1, [some 0]⟩ 1 1 = .ok ⟨1, 1, 1, 1, [some 0]⟩ := by
  simp only [landformZr, gridMinimum_zero, gridMaximum_zero]
  norm_num [stdBands, reclassifyRange, remapRangeValue]

theorem landformZr_thousand :
    landformZr ⟨1, 1, 1, 1, [some 0]⟩ 1 1000 = .ok ⟨1, 1, 1, 1, [some 0]⟩ := by
  simp only [landformZr, gridMinimum_zero, gridMaximum_zero]
  norm_num [stdBands, reclassifyRange, remapRangeValue]

theorem gridAdd_zeros :
    gridAdd ⟨1, 1, 1, 1, [some 0]⟩ ⟨1, 1, 1, 1, [some 0]⟩ = ⟨1, 1, 1, 1, [some 0]⟩ := by
  norm_num [gridAdd, cellwise2, binCell]

theorem slopeCorrection_concrete :
    slopeCorrection ⟨1, 1, 1, 1, [some 0]⟩ slopeTen 5 = ⟨1, 1, 1, 1, [some 10]⟩ := by
  norm_num [slopeCorrection, cellwise2, conCell, slopeTen]

theorem gridAdd_zero_ten :
    gridAdd ⟨1, 1, 1, 1, [some 0]⟩ ⟨1, 1, 1, 1, [some 10]⟩ = ⟨1, 1, 1, 1, [some 10]⟩ := by
  norm_num [gridAdd, cellwise2, binCell]

theorem reclassifyValue_ten :
    reclassifyValue tpilandformTable ⟨1, 1, 1, 1, [some 10]⟩ = .ok ⟨1, 1, 1, 1, [some 6]⟩ := by
  norm_num [reclassifyValue, reclassifyValueCells, lookupValue, tpilandformTable]

theorem landform_concrete_run :
    landform tpiFlat tpiFlat slopeTen 1 5 = .ok ⟨1, 1, 1, 1, [some 6]⟩ := by
  simp only [landform, zNormalize_tpiFlat, landformZr_one, landformZr_thousand]
  rw [gridAdd_zeros, slopeCorrection_concrete, gridAdd_zero_ten, reclassifyValue_ten]

/-! ## Claims C4 and C5 -/

/-- Claim C4: in `slopePosition`, a valid correction cell is 1 exactly
when the reclassified TPI code is 3 and the slope is at most the flat
threshold 5 (the literal in the code, the spec's default), otherwise 0;
the result adds the correction to the reclassified code; a cell whose TPI
equals the mean classifies as 3 when its slope exceeds 5 and as 4
otherwise; and every valid output code is one of 1..6. -/
theorem claim4_slope_position_correction (tpi : Raster) (slope : RasterGrid)
    (hsd : 0 < tpi.standardDeviation)
    (hstats : ∀ (i : Nat) (v : ℚ), tpi.grid.cells[i]? = some (some v) →
      tpi.minimum ≤ v ∧ v ≤ tpi.maximum) :
    (∀ (i : Nat) (q sv : ℚ), (slopePositionTpiR tpi).cells[i]? = some (some q) →
        slope.cells[i]? = some (some sv) →
        (slopePositionSlopeR tpi slope).cells[i]? =
          some (some (if q = 3 ∧ sv ≤ 5 then 1 else 0))) ∧
    (∀ (i : Nat) (q cr : ℚ), (slopePositionTpiR tpi).cells[i]? = some (some q) →
        (slopePositionSlopeR tpi slope).cells[i]? = some (some cr) →
        (slopePosition tpi slope).cells[i]? = some (some (q + cr))) ∧
    (∀ (i : Nat) (sv : ℚ), tpi.grid.cells[i]? = some (some tpi.mean) →
        slope.cells[i]? = some (some sv) →
        (slopePosition tpi slope).cells[i]? =
          some (some (if sv ≤ 5 then 4 else 3))) ∧
    (∀ (i : Nat) (q : ℚ), (slopePosition tpi slope).cells[i]? = some (some q) →
        q ∈ ([1, 2, 3, 4, 5, 6] : List ℚ)) := by
  have hslopeR : ∀ (i : Nat) (q sv : ℚ), (slopePositionTpiR tpi).cells[i]? = some (some q) →
      slope.cells[i]? = some (some sv) →
      (slopePositionSlopeR tpi slope).cells[i]? =
        some (some (if q = 3 ∧ sv ≤ 5 then 1 else 0)) := by
    intro i q sv hq hs
    simp only [slopePositionSlopeR]
    rw [cellwise2_getElem, hq, hs]
    by_cases h3 : q = 3 <;> by_cases h5 : sv ≤ 5 <;> simp [conCell, h3, h5]
  have hadd : ∀ (i : Nat) (q cr : ℚ), (slopePositionTpiR tpi).cells[i]? = some (some q) →
      (slopePositionSlopeR tpi slope).cells[i]? = some (some cr) →
      (slopePosition tpi slope).cells[i]? = some (some (q + cr)) := by
    intro i q cr hq hc
    simp only [slopePosition, gridAdd]
    rw [cellwise2_getElem, hq, hc]
    simp [binCell]
  refine ⟨hslopeR, hadd, ?_, ?_⟩
  · intro i sv hm hs
    have hq : (slopePositionTpiR tpi).cells[i]? = some (some 3) := by
      simp only [slopePositionTpiR]
      rw [reclassifyRange_getElem, hm]
      simp [remapRange_mean tpi.mean tpi.standardDeviation tpi.minimum tpi.maximum hsd]
    have h1 := hslopeR i 3 sv hq hs
    have h2 := hadd i 3 _ hq h1
    rw [h2]
    by_cases h5 : sv ≤ 5
    · rw [if_pos (⟨rfl, h5⟩ : (3:ℚ) = 3 ∧ sv ≤ 5), if_pos h5]
      norm_num
    · rw [if_neg (by rintro ⟨ha, hb⟩; exact h5 hb), if_neg h5]
      norm_num
  · intro i q hq
    simp only [slopePosition, gridAdd] at hq
    rw [cellwise2_getElem] at hq
    rcases e1 : (slopePositionTpiR tpi).cells[i]? with _ | a
    · rw [e1] at hq; simp at hq
    rcases e2 : (slopePositionSlopeR tpi slope).cells[i]? with _ | b
    · rw [e1, e2] at hq; simp at hq
    rw [e1, e2] at hq
    have hab : binCell (· + ·) a b = some q := by simpa using hq
    obtain ⟨qa, qb, ha, hb, hqv⟩ := binCell_eq_some hab
    subst ha
    subst hb
    have hqa : qa ∈ ([1, 2, 3, 5, 6] : List ℚ) := by
      simp only [slopePositionTpiR] at e1
      rw [reclassifyRange_getElem] at e1
      rcases e3 : tpi.grid.cells[i]? with _ | oc
      · rw [e3] at e1; simp at e1
      rcases oc with _ | v
      · rw [e3] at e1; simp at e1
      rw [e3] at e1
      have hval : qa = remapRangeValue
          (slopePositionBands tpi.mean tpi.standardDeviation tpi.minimum tpi.maximum) v := by
        simpa using e1.symm
      obtain ⟨hv1, hv2⟩ := hstats i v e3
      rw [hval]
      exact remapRange_coverage tpi.mean tpi.standardDeviation tpi.minimum tpi.maximum hv1 hv2
    simp only [slopePositionSlopeR] at e2
    rw [cellwise2_getElem, e1] at e2
    rcases e4 : slope.cells[i]? with _ | s
    · rw [e4] at e2; simp at e2
    rw [e4] at e2
    by_cases hq3 : qa = 3
    · rcases s with _ | sv
      · simp [conCell, hq3] at e2
      have hqb : qb = 1 ∨ qb = 0 := by
        by_cases h5 : sv ≤ 5 <;> simp [conCell, hq3, h5] at e2
        · exact Or.inl e2.symm
        · exact Or.inr e2.symm
      subst hq3
      rw [hqv]
      rcases hqb with rfl | rfl <;> norm_num [List.mem_cons]
    · have hqb : qb = 0 := by
        rcases s with _ | sv <;> simp [conCell, hq3] at e2 <;> exact e2.symm
      subst hqb
      rw [hqv]
      simp only [add_zero]
      simp only [List.mem_cons, List.not_mem_nil, or_false] at hqa
      rcases hqa with rfl | rfl | rfl | rfl | rfl <;> norm_num [List.mem_cons]

/-- Claim C4, witness: on the concrete one-cell TPI raster whose value is
the mean, with slope 10 greater than the threshold 5, the slope position
is class 3. -/
theorem claim4_slope_position_correction_witness :
    (0:ℚ) < 1 ∧ (slopePosition tpiFlat slopeTen).cells[0]? = some (some 3) := by
  have hstats : ∀ (i : Nat) (v : ℚ), tpiFlat.grid.cells[i]? = some (some v) →
      tpiFlat.minimum ≤ v ∧ v ≤ tpiFlat.maximum := by
    intro i v h
    cases i with
    | zero =>
      simp [tpiFlat] at h
      simp [tpiFlat, ← h]
    | succ n => simp [tpiFlat] at h
  have h := (claim4_slope_position_correction tpiFlat slopeTen
    (by norm_num [tpiFlat]) hstats).2.2.1 0 10 rfl rfl
  refine ⟨by norm_num, ?_⟩
  rw [h, if_neg (by norm_num)]

/-- Claim C5: the slope-position reclassification uses exactly five bands
with boundaries `mean+sd`, `mean+0.5*sd`, `mean-0.5*sd`, `mean-sd`
against `[min, max]` and codes 1, 2, 3, 5, 6 from the highest band down
(code 4 absent at this stage); any value on a shared boundary goes to the
higher band, code 3 spans the mid band, and every value in `[min, max]`
receives one of the five codes. -/
theorem claim5_slope_position_bands (m sd mn mx : ℚ) (hsd : 0 < sd) :
    ((slopePositionBands m sd mn mx).map (fun b => b.2.2) = [1, 2, 3, 5, 6]) ∧
    (m + sd ≤ mx → remapRangeValue (slopePositionBands m sd mn mx) (m + sd) = 1) ∧
    (remapRangeValue (slopePositionBands m sd mn mx) (m + 0.5 * sd) = 2) ∧
    (remapRangeValue (slopePositionBands m sd mn mx) (m - 0.5 * sd) = 3) ∧
    (remapRangeValue (slopePositionBands m sd mn mx) (m - sd) = 5) ∧
    (∀ v, m - 0.5 * sd ≤ v → v < m + 0.5 * sd →
      remapRangeValue (slopePositionBands m sd mn mx) v = 3) ∧
    (∀ v, mn ≤ v → v ≤ mx →
      remapRangeValue (slopePositionBands m sd mn mx) v ∈ ([1, 2, 3, 5, 6] : List ℚ)) ∧
    (∀ tpi : Raster, slopePositionTpiR tpi =
      reclassifyRange
        (slopePositionBands tpi.mean tpi.standardDeviation tpi.minimum tpi.maximum)
        tpi.grid) := by
  refine ⟨rfl, ?_, ?_, ?_, ?_, ?_,
    fun v h1 h2 => remapRange_coverage m sd mn mx h1 h2,
    fun tpi => rfl⟩
  · intro hmx
    simp only [slopePositionBands, remapRangeValue]
    rw [if_pos ⟨le_refl _, hmx⟩]
  · simp only [slopePositionBands, remapRangeValue]
    rw [if_neg (by rintro ⟨h1, h2⟩; linarith), if_pos ⟨le_refl _, by linarith⟩]
  · simp only [slopePositionBands, remapRangeValue]
    rw [if_neg (by rintro ⟨h1, h2⟩; linarith), if_neg (by rintro ⟨h1, h2⟩; linarith),
      if_pos ⟨le_refl _, by linarith⟩]
  · simp only [slopePositionBands, remapRangeValue]
    rw [if_neg (by rintro ⟨h1, h2⟩; linarith), if_neg (by rintro ⟨h1, h2⟩; linarith),
      if_neg (by rintro ⟨h1, h2⟩; linarith), if_pos ⟨by linarith, by linarith⟩]
  · intro v hv1 hv2
    simp only [slopePositionBands, remapRangeValue]
    rw [if_neg (by rintro ⟨h1, h2⟩; linarith), if_neg (by rintro ⟨h1, h2⟩; linarith),
      if_pos ⟨hv1, by linarith⟩]

/-- Claim C5, witness: with mean 0, standard deviation 1 and range
`[-10, 10]`, the boundary value `mean + sd` receives code 1. -/
theorem claim5_slope_position_bands_witness :
    remapRangeValue (slopePositionBands 0 1 (-10) 10) (0 + 1) = 1 :=
  (claim5_slope_position_bands 0 1 (-10) 10 (by norm_num)).2.1 (by norm_num)

theorem reclassifyValue_ok_codes {table : List (ℚ × ℚ)} {g out : RasterGrid}
    (h : reclassifyValue table g = .ok out) :
    ∀ d ∈ out.cells, ∀ q : ℚ, d = some q → ∃ k, lookupValue table k = some q := by
  unfold reclassifyValue at h
  rcases h5 : reclassifyValueCells table g.cells with e | ds
  · rw [h5] at h; simp at h
  · rw [h5] at h
    simp only [Except.ok.injEq] at h
    subst h
    intro d hd q hq
    exact reclassifyValueCells_ok_codes h5 d (by simpa using hd) q hq

theorem landform_ok_reclassify {tpiS tpiL : Raster} {slope : RasterGrid}
    {t th : ℚ} {out : RasterGrid}
    (h : landform tpiS tpiL slope t th = .ok out) :
    ∃ g : RasterGrid, reclassifyValue tpilandformTable g = .ok out := by
  simp only [landform] at h
  rcases h1 : zNormalize tpiS with e | zS
  · simp only [h1] at h
    exact Except.noConfusion h
  · simp only [h1] at h
    rcases h2 : zNormalize tpiL with e | zL
    · simp only [h2] at h
      exact Except.noConfusion h
    · simp only [h2] at h
      rcases h3 : landformZr zS t 1 with e | zSr
      · simp only [h3] at h
        exact Except.noConfusion h
      · simp only [h3] at h
        rcases h4 : landformZr zL t 1000 with e | zLr
        · simp only [h4] at h
          exact Except.noConfusion h
        · simp only [h4] at h
          exact ⟨_, h⟩

/-! ## Claims C3, C6, C7, C8 -/

/-- Claim C3: the final landform step performs the exact-value remap with
the fixed ten-entry table (each pre-image maps to exactly its landform
code), and consequently every valid cell of a successful `landform`
output is a code in 1..10. -/
theorem claim3_landform_table :
    (lookupValue tpilandformTable (-1001) = some 1 ∧
     lookupValue tpilandformTable (-1000) = some 4 ∧
     lookupValue tpilandformTable (-999) = some 8 ∧
     lookupValue tpilandformTable (-1) = some 2 ∧
     lookupValue tpilandformTable 0 = some 5 ∧
     lookupValue tpilandformTable 1 = some 9 ∧
     lookupValue tpilandformTable 10 = some 6 ∧
     lookupValue tpilandformTable 999 = some 3 ∧
     lookupValue tpilandformTable 1000 = some 7 ∧
     lookupValue tpilandformTable 1001 = some 10) ∧
    (∀ (tpiS tpiL : Raster) (slope : RasterGrid) (t th : ℚ) (out : RasterGrid),
      landform tpiS tpiL slope t th = .ok out →
      ∀ d ∈ out.cells, ∀ q : ℚ, d = some q →
        q ∈ ([1, 2, 3, 4, 5, 6, 7, 8, 9, 10] : List ℚ)) := by
  constructor
  · refine ⟨?_, ?_, ?_, ?_, ?_, ?_, ?_, ?_, ?_, ?_⟩ <;>
      norm_num [lookupValue, tpilandformTable]
  · intro tpiS tpiL slope t th out h d hd q hq
    obtain ⟨g, hre⟩ := landform_ok_reclassify h
    obtain ⟨k, hk⟩ := reclassifyValue_ok_codes hre d hd q hq
    exact tpilandformTable_codes (lookupValue_mem hk)

/-- Claim C3, witness: a concrete successful `landform` run whose single
output cell is the code 6, which the theorem places in 1..10. -/
theorem claim3_landform_table_witness :
    landform tpiFlat tpiFlat slopeTen 1 5 = .ok ⟨1, 1, 1, 1, [some 6]⟩ ∧
      (6 : ℚ) ∈ ([1, 2, 3, 4, 5, 6, 7, 8, 9, 10] : List ℚ) :=
  ⟨landform_concrete_run,
   claim3_landform_table.2 tpiFlat tpiFlat slopeTen 1 5 _ landform_concrete_run
     (some 6) (by simp) 6 rfl⟩

/-- Claim C6: in `landform`, a valid slope-correction cell equals 10
exactly when the combined two-scale code is 0 and the slope exceeds the
threshold, otherwise 0; the final grid adds the correction to the
combined code; and the concrete scenario (both z grids in the 0 band,
slope 10, threshold 5) gives combined 0, correction 10, final 10 and
landform code 6. -/
theorem claim6_landform_slope_correction :
    (∀ (ra sl : RasterGrid) (th : ℚ) (i : Nat) (q sv : ℚ),
        ra.cells[i]? = some (some q) → sl.cells[i]? = some (some sv) →
        (slopeCorrection ra sl th).cells[i]? =
          some (some (if q = 0 ∧ th < sv then 10 else 0))) ∧
    (∀ (ra sl : RasterGrid) (th : ℚ) (i : Nat) (q cr : ℚ),
        ra.cells[i]? = some (some q) →
        (slopeCorrection ra sl th).cells[i]? = some (some cr) →
        (gridAdd ra (slopeCorrection ra sl th)).cells[i]? = some (some (q + cr))) ∧
    (slopeCorrection ⟨1, 1, 1, 1, [some 0]⟩ slopeTen 5 = ⟨1, 1, 1, 1, [some 10]⟩) ∧
    (lookupValue tpilandformTable 10 = some 6) ∧
    (landform tpiFlat tpiFlat slopeTen 1 5 = .ok ⟨1, 1, 1, 1, [some 6]⟩) := by
  refine ⟨?_, ?_, slopeCorrection_concrete,
    by norm_num [lookupValue, tpilandformTable], landform_concrete_run⟩
  · intro ra sl th i q sv hq hs
    simp only [slopeCorrection]
    rw [cellwise2_getElem, hq, hs]
    by_cases h0 : q = 0 <;> by_cases hth : th < sv <;> simp [conCell, h0, hth]
  · intro ra sl th i q cr hq hc
    simp only [gridAdd]
    rw [cellwise2_getElem, hq, hc]
    simp [binCell]

/-- Claim C6, witness: the correction cell at a concrete combined-0 cell
with slope 10 and threshold 5. -/
theorem claim6_landform_slope_correction_witness :
    (slopeCorrection ⟨1, 1, 1, 1, [some 0]⟩ slopeTen 5).cells[0]? =
      some (some (if (0 : ℚ) = 0 ∧ (5 : ℚ) < 10 then 10 else 0)) :=
  claim6_landform_slope_correction.1 ⟨1, 1, 1, 1, [some 0]⟩ slopeTen 5 0 0 10 rfl rfl

/-- Claim C7: `landform` z-normalizes each TPI grid with that grid's own
mean and standard deviation; the normalization fails with
`DegenerateRasterError` exactly when the standard deviation is zero (so
the division is only performed with a nonzero divisor), and `landform`
fails with `DegenerateRasterError` whenever either input grid has zero
standard deviation. -/
theorem claim7_degenerate_raster (t tpiS tpiL : Raster) (slope : RasterGrid)
    (sdT slT : ℚ) :
    (t.standardDeviation = 0 → zNormalize t = .error .degenerateRaster) ∧
    (t.standardDeviation ≠ 0 → zNormalize t = .ok { t.grid with
      cells := t.grid.cells.map
        (Option.map (fun v => (v - t.mean) / t.standardDeviation)) }) ∧
    (tpiS.standardDeviation = 0 ∨ tpiL.standardDeviation = 0 →
      landform tpiS tpiL slope sdT slT = .error .degenerateRaster) := by
  refine ⟨fun h => by simp [zNormalize, h], fun h => by simp [zNormalize, h], ?_⟩
  intro hor
  by_cases hS : tpiS.standardDeviation = 0
  · have h1 : zNormalize tpiS = .error .degenerateRaster := by simp [zNormalize, hS]
    simp only [landform, h1]
  · rcases hor with h | hL
    · exact absurd h hS
    · have h1 : zNormalize tpiS = .ok { tpiS.grid with
        cells := tpiS.grid.cells.map
          (Option.map (fun v => (v - tpiS.mean) / tpiS.standardDeviation)) } := by
        simp [zNormalize, hS]
      have h2 : zNormalize tpiL = .error .degenerateRaster := by simp [zNormalize, hL]
      simp only [landform, h1, h2]

/-- Claim C7, witness: a raster whose standard-deviation property is zero
makes both the normalization and the whole landform run fail with
`DegenerateRasterError`. -/
theorem claim7_degenerate_raster_witness :
    zNormalize tpiDeg = .error .degenerateRaster ∧
      landform tpiDeg tpiDeg slopeTen 1 5 = .error .degenerateRaster :=
  ⟨(claim7_degenerate_raster tpiDeg tpiDeg tpiDeg slopeTen 1 5).1 rfl,
   (claim7_degenerate_raster tpiDeg tpiDeg tpiDeg slopeTen 1 5).2.2 (Or.inl rfl)⟩

/-- Claim C8: `reclassifyValue` keeps no-data cells no-data, fails with
`UnmappedValueError` whenever some valid cell value is absent from the
table, and in particular the landform table rejects every value outside
its ten-entry domain. -/
theorem claim8_unmapped_value (table : List (ℚ × ℚ)) (g : RasterGrid) :
    (∀ out : RasterGrid, reclassifyValue table g = .ok out →
      ∀ i : Nat, g.cells[i]? = some none → out.cells[i]? = some none) ∧
    (∀ v : ℚ, some v ∈ g.cells → lookupValue table v = none →
      reclassifyValue table g = .error .unmappedValue) ∧
    (∀ w : ℚ, w ∉ ([-1001, -1000, -999, -1, 0, 1, 999, 1000, 1001, 10] : List ℚ) →
      lookupValue tpilandformTable w = none) ∧
    (∀ w : ℚ, some w ∈ g.cells →
      w ∉ ([-1001, -1000, -999, -1, 0, 1, 999, 1000, 1001, 10] : List ℚ) →
      reclassifyValue tpilandformTable g = .error .unmappedValue) := by
  have hnone : ∀ w : ℚ,
      w ∉ ([-1001, -1000, -999, -1, 0, 1, 999, 1000, 1001, 10] : List ℚ) →
      lookupValue tpilandformTable w = none := by
    intro w hw
    apply lookupValue_eq_none.2
    intro hmem
    apply hw
    simp only [tpilandformTable, List.map_cons, List.map_nil, List.mem_cons,
      List.not_mem_nil, or_false] at hmem
    simp only [List.mem_cons, List.not_mem_nil, or_false]
    tauto
  have herr : ∀ (tb : List (ℚ × ℚ)) (v : ℚ), some v ∈ g.cells →
      lookupValue tb v = none → reclassifyValue tb g = .error .unmappedValue := by
    intro tb v hv hlk
    unfold reclassifyValue
    rw [reclassifyValueCells_unmapped hv hlk]
  refine ⟨?_, herr table, hnone,
    fun w hw hnin => herr tpilandformTable w hw (hnone w hnin)⟩
  intro out hok i hi
  unfold reclassifyValue at hok
  rcases h5 : reclassifyValueCells table g.cells with e | ds
  · rw [h5] at hok; simp at hok
  · rw [h5] at hok
    simp only [Except.ok.injEq] at hok
    subst hok
    simpa using reclassifyValueCells_ok_nodata h5 i hi

/-- Claim C8, witness: the value 2 is outside the landform table's domain,
so remapping a grid holding it fails with `UnmappedValueError`. -/
theorem claim8_unmapped_value_witness :
    reclassifyValue tpilandformTable gridTwo = .error .unmappedValue :=
  (claim8_unmapped_value tpilandformTable gridTwo).2.2.2 2 (by simp [gridTwo])
    (by norm_num [List.mem_cons])

/-! ## Claims C9 and C10 -/

/-- Claim C9, counterexample: the claim says every call leaves the
process-wide environment settings unchanged, but `slopePosition` called
with a mask argument on a clean environment leaves `env.mask` and
`env.snapRaster` set when it returns. -/
theorem claim9_counterexample :
    slopePositionEnv ⟨none, none⟩ 0 (some 1) ≠ (⟨none, none⟩ : GeoEnv) := by
  decide

/-- Claim C9, amended: `processTPI` always clears `env.mask` to `None`
before returning (regardless of the value it held on entry) and leaves
`env.snapRaster` alone; `slopePosition` and `landform` called without a
mask leave the environment unchanged, but called with a mask they leave
`env.mask` (and, for `slopePosition`, `env.snapRaster`) set to the
supplied values after returning. -/
theorem claim9_env_effects :
    (∀ env marg, (processTPIEnv env marg).mask = none ∧
      (processTPIEnv env marg).snapRaster = env.snapRaster) ∧
    (∀ env t, slopePositionEnv env t none = env) ∧
    (∀ env t m, slopePositionEnv env t (some m) =
      { env with mask := some m, snapRaster := some t }) ∧
    (∀ env, landformEnv env none = env) ∧
    (∀ env m, landformEnv env (some m) = { env with mask := some m }) := by
  refine ⟨fun env marg => ?_, fun env t => rfl, fun env t m => rfl,
    fun env => rfl, fun env m => rfl⟩
  cases marg <;> exact ⟨rfl, rfl⟩

/-- Claim C10: the guard `x != arcpy.sa.Raster` compares the argument to
the Raster class object itself, so it is true for every actual argument (a
path string or a raster instance); the constructor is therefore applied to
every input, raster instances included, and the pass-through branch is
unreachable. -/
theorem claim10_cast_guard (load : String → Raster) (x : PyValue)
    (hx : (∃ s, x = PyValue.str s) ∨ ∃ g, x = PyValue.rasterObj g) :
    x ≠ PyValue.classRaster ∧ castToRasterStep load x = pyRasterConstructor load x := by
  rcases hx with ⟨s, rfl⟩ | ⟨g, rfl⟩ <;>
    exact ⟨by simp, by simp [castToRasterStep]⟩

/-- Claim C10, witness at a concrete path argument. -/
theorem claim10_cast_guard_witness :
    PyValue.str "dem" ≠ PyValue.classRaster ∧
      castToRasterStep constLoad (PyValue.str "dem") =
        pyRasterConstructor constLoad (PyValue.str "dem") :=
  claim10_cast_guard constLoad (PyValue.str "dem") (Or.inl ⟨"dem", rfl⟩)

end TPI
